import Mathlib

/-!
Shallow embedding of the listing-lifecycle core of the iow-car-finder server
(`src/server.js`, three variants separated in the corpus, and
`src/unnamed/part_000`).  The embedding covers the UK date parser
(`parseUKDate`), the visibility policy (`soldTooOld`, the `/cars` and
`/car-data` filters), and the listing store operations (insert, delete,
mark-sold) in both their Supabase-backed (`db…`) and flat-file (`file…`)
forms, together with the HTTP handlers that orchestrate them.

Modelling conventions:
* JavaScript strings are Lean `String`s (lists of characters); `undefined`
  and `null` are `Option.none`.
* `Number(s)` on strings is modelled exactly (`jsNumber`), computing the
  mathematical value of the numeric literal as `mantissa · 10^exponent`.
  IEEE-754 rounding of values with more than 17 significant digits is not modelled;
  none of the verified properties depends on it (the parser's range checks
  confine all accepted values to small integers).
* `new Date(y, m-1, d)` is modelled by `mkJsDate`, the calendar
  normalization JS performs, on the domain the parser guards
  (1 ≤ m ≤ 12, 1 ≤ d ≤ 31, 2000 ≤ y ≤ 2100, so at most one month of
  day-overflow can occur).  `Date.prototype.getTime` is modelled by
  `dateGetTime` with the host timezone taken as UTC.
* Listing-store backends (the Supabase `cars` table and `cars.json`) are
  both modelled as a `List Car`; a Supabase `update … eq` touches every
  matching row, `insert` appends, `delete … eq` removes every matching row.
* Fields of a car row that no modelled operation ever reads (mileage,
  engine, fuel, transmission, colour, owners, serviceHistory, motUntil,
  description, extras, the derived `photo`, the db-assigned `id`) are
  omitted from `Car`.
-/

/-! ### JavaScript string primitives -/

/-- The whitespace characters recognised by `String.prototype.trim` that can
realistically occur in this system's inputs (space, tab, LF, CR). -/
def isJsWs (c : Char) : Bool :=
  c == ' ' || c == '\t' || c == '\n' || c == '\r'

/-- `String.prototype.trim` on a character list. -/
def jsTrimList (cs : List Char) : List Char :=
  ((cs.dropWhile isJsWs).reverse.dropWhile isJsWs).reverse

/-- `String.prototype.trim`. -/
def jsTrimStr (s : String) : String :=
  String.mk (jsTrimList s.toList)

/-- `String.prototype.split("/")` for the one-character separator `/`:
`"".split("/")` is `[""]`, a trailing separator yields a trailing empty
component. -/
def splitSlash : List Char → List (List Char)
  | [] => [[]]
  | c :: cs =>
    if c = '/' then [] :: splitSlash cs
    else
      match splitSlash cs with
      | [] => [[c]]
      | h :: t => (c :: h) :: t

/-- `String(x || "")` for a value that is a string or absent/null. -/
def jsStr (o : Option String) : String := o.getD ""

/-- `Char` lower-casing in the ASCII range, which covers the listing names
this system handles. -/
def jsLowerChar (c : Char) : Char :=
  if 65 ≤ c.toNat ∧ c.toNat ≤ 90 then Char.ofNat (c.toNat + 32) else c

/-- `String.prototype.toLowerCase` (ASCII range). -/
def jsLower (s : String) : String := String.mk (s.toList.map jsLowerChar)

/-- Truthiness test `!x` for an optional string: `undefined`, `null` and
`""` are falsy. -/
def optFalsy : Option String → Bool
  | none => true
  | some s => s == ""

/-- `x || d` for an optional string `x`: the default wins exactly when `x`
is falsy. -/
def jsOrElse (o : Option String) (d : String) : String :=
  match o with
  | none => d
  | some v => if v = "" then d else v

/-! ### `Number(string)`: the string-to-number conversion -/

/-- The outcome of JavaScript's `Number(...)` coercion: `NaN`, a signed
infinity, or a finite value held exactly as `n · 10^e` (see the header
note on rounding).  The representation is not normalized — `Number("2.0")`
is `dec 20 (-1)` and `Number("2")` is `dec 2 0` — but every observation
the embedded code makes (`isIntegerB`, `isFiniteB`, `leZeroB`, `toInt`)
depends only on the denoted value. -/
inductive JsNum where
  | nan : JsNum
  | inf : Bool → JsNum
  | dec : Int → Int → JsNum
deriving DecidableEq, Repr

/-- Value of a decimal digit string read left to right. -/
def digitsToNat (cs : List Char) : Nat :=
  cs.foldl (fun a c => 10 * a + (c.toNat - 48)) 0

/-- Radix accumulator used by the hex/octal/binary literal forms. -/
def radixToNat (b : Nat) (val : Char → Nat) (cs : List Char) : Nat :=
  cs.foldl (fun a c => b * a + val c) 0

def isHexDigitB (c : Char) : Bool :=
  c.isDigit || (97 ≤ c.toNat && c.toNat ≤ 102) || (65 ≤ c.toNat && c.toNat ≤ 70)

def hexVal (c : Char) : Nat :=
  if c.isDigit then c.toNat - 48
  else if 97 ≤ c.toNat then c.toNat - 87
  else c.toNat - 55

def isOctDigitB (c : Char) : Bool := 48 ≤ c.toNat && c.toNat ≤ 55

def isBinDigitB (c : Char) : Bool := c == '0' || c == '1'

/-- `ExponentPart`: `e`/`E` already consumed, an optional sign followed by
at least one digit. -/
def parseExpPart : List Char → Option Int
  | [] => none
  | '+' :: ds =>
    if ds ≠ [] ∧ ds.all Char.isDigit then some ((digitsToNat ds : Nat) : Int) else none
  | '-' :: ds =>
    if ds ≠ [] ∧ ds.all Char.isDigit then some (-((digitsToNat ds : Nat) : Int)) else none
  | ds =>
    if ds.all Char.isDigit then some ((digitsToNat ds : Nat) : Int) else none

/-- `StrUnsignedDecimalLiteral` without the `Infinity` form:
`digits [. digits] [exp]` or `. digits [exp]`.  The value is returned as an
unsigned mantissa and a power-of-ten exponent: `digits.frac e ex` denotes
`digits·frac · 10^(ex - |frac|)`. -/
def parseUnsignedDec (cs : List Char) : Option (Nat × Int) :=
  let ip := cs.takeWhile Char.isDigit
  let r1 := cs.dropWhile Char.isDigit
  match r1 with
  | [] => if ip = [] then none else some (digitsToNat ip, 0)
  | '.' :: r2 =>
    let fp := r2.takeWhile Char.isDigit
    let r3 := r2.dropWhile Char.isDigit
    if ip = [] ∧ fp = [] then none
    else
      let mant := digitsToNat (ip ++ fp)
      match r3 with
      | [] => some (mant, -(fp.length : Int))
      | c :: r4 =>
        if c = 'e' ∨ c = 'E' then
          match parseExpPart r4 with
          | some ex => some (mant, ex - (fp.length : Int))
          | none => none
        else none
  | c :: r2 =>
    if (c = 'e' ∨ c = 'E') ∧ ip ≠ [] then
      match parseExpPart r2 with
      | some ex => some (digitsToNat ip, ex)
      | none => none
    else none

/-- Body of a signed decimal literal: either `Infinity` or an unsigned
decimal literal, with the sign applied. -/
def parseDecBody (neg : Bool) (body : List Char) : JsNum :=
  if body = ['I', 'n', 'f', 'i', 'n', 'i', 't', 'y'] then JsNum.inf neg
  else
    match parseUnsignedDec body with
    | some me => JsNum.dec (if neg then -(me.1 : Int) else (me.1 : Int)) me.2
    | none => JsNum.nan

/-- `StrDecimalLiteral`: an optional sign then a decimal body. -/
def parseSignedDec : List Char → JsNum
  | '+' :: body => parseDecBody false body
  | '-' :: body => parseDecBody true body
  | body => parseDecBody false body

/-- `StrNumericLiteral`: `0x`/`0o`/`0b` radix forms (no sign allowed) or a
signed decimal literal. -/
def parseNumericLit (cs : List Char) : JsNum :=
  match cs with
  | '0' :: c2 :: ds =>
    if c2 = 'x' ∨ c2 = 'X' then
      if ds ≠ [] ∧ ds.all isHexDigitB then JsNum.dec ((radixToNat 16 hexVal ds : Nat) : Int) 0
      else JsNum.nan
    else if c2 = 'o' ∨ c2 = 'O' then
      if ds ≠ [] ∧ ds.all isOctDigitB then JsNum.dec ((radixToNat 8 (fun c => c.toNat - 48) ds : Nat) : Int) 0
      else JsNum.nan
    else if c2 = 'b' ∨ c2 = 'B' then
      if ds ≠ [] ∧ ds.all isBinDigitB then JsNum.dec ((radixToNat 2 (fun c => c.toNat - 48) ds : Nat) : Int) 0
      else JsNum.nan
    else parseSignedDec cs
  | _ => parseSignedDec cs

/-- `Number(s)` on a character list: trim, empty means `+0`, otherwise the
string must be a complete numeric literal, else `NaN`. -/
def jsNumberL (cs : List Char) : JsNum :=
  let t := jsTrimList cs
  if t = [] then JsNum.dec 0 0 else parseNumericLit t

/-- `Number(s)` on a string. -/
def jsNumber (s : String) : JsNum := jsNumberL s.toList

/-- `Number.isInteger`: finite with zero fractional part.  `n · 10^e` is an
integer iff `e ≥ 0` or `10^(-e)` divides `n`. -/
def JsNum.isIntegerB : JsNum → Bool
  | .dec n e => if 0 ≤ e then true else decide (n % (10 : Int) ^ (-e).toNat = 0)
  | _ => false

/-- `Number.isFinite`. -/
def JsNum.isFiniteB : JsNum → Bool
  | .dec _ _ => true
  | _ => false

/-- The comparison `x <= 0` (false on `NaN`, true on `-Infinity`; the sign
of `n · 10^e` is the sign of `n`). -/
def JsNum.leZeroB : JsNum → Bool
  | .dec n _ => decide (n ≤ 0)
  | .inf neg => neg
  | .nan => false

/-- The integer value of a `JsNum`; meaningful after an `isIntegerB`
check, where it is the exact value of `n · 10^e` (the division is then
exact). -/
def JsNum.toInt : JsNum → Int
  | .dec n e => if 0 ≤ e then n * (10 : Int) ^ e.toNat else n / (10 : Int) ^ (-e).toNat
  | .inf _ => 0
  | .nan => 0

/-! ### The UK date parser (`parseUKDate`) and calendar arithmetic -/

/-- A calendar date as read back from a JS `Date` via
`getFullYear` / `getMonth() + 1` / `getDate`. -/
structure UKDate where
  year : Int
  month : Int
  day : Int
deriving DecidableEq, Repr

/-- Gregorian leap-year rule used by `Date`. -/
def isLeap (y : Int) : Bool := y % 4 == 0 && (y % 100 != 0 || y % 400 == 0)

/-- Length of month `m` (1–12) of year `y`. -/
def daysInMonth (y m : Int) : Int :=
  if m = 2 then (if isLeap y then 29 else 28)
  else if m = 4 ∨ m = 6 ∨ m = 9 ∨ m = 11 then 30
  else 31

/-- `new Date(y, m - 1, d)` followed by reading the components back:
JS rolls a day-of-month overflow into the following month.  On the domain
guarded by `parseUKDate` (1 ≤ m ≤ 12, 1 ≤ d ≤ 31) at most one month of
rollover can occur. -/
def mkJsDate (y m d : Int) : UKDate :=
  if d ≤ daysInMonth y m then ⟨y, m, d⟩
  else if m = 12 then ⟨y + 1, 1, d - 31⟩
  else ⟨y, m + 1, d - daysInMonth y m⟩

/-- `parseUKDate` (src/server.js lines 41–56 and the identical copies in the
other variants): reject falsy input, trim, split on `/` into exactly three
components, convert each with `Number`, require integers, range-check
day/month/year, build the date and require it to round-trip. -/
def parseUKDate (str : Option String) : Option UKDate :=
  match str with
  | none => none
  | some s =>
    if s = "" then none
    else
      match splitSlash (jsTrimList s.toList) with
      | [p1, p2, p3] =>
        let dn := jsNumberL p1
        let mn := jsNumberL p2
        let yn := jsNumberL p3
        if dn.isIntegerB ∧ mn.isIntegerB ∧ yn.isIntegerB then
          let day := dn.toInt
          let month := mn.toInt
          let year := yn.toInt
          if day < 1 ∨ 31 < day ∨ month < 1 ∨ 12 < month ∨ year < 2000 ∨ 2100 < year then none
          else
            let d := mkJsDate year month day
            if d.year = year ∧ d.month = month ∧ d.day = day then some d else none
        else none
      | _ => none

/-- Day number of a civil date counted from 0000-03-01 (valid for year ≥ 1,
month 1–12; month-shifted Gregorian formula). -/
def daysSinceEpochMar (y m d : Nat) : Nat :=
  let y' := if m ≤ 2 then y - 1 else y
  let m' := if m ≤ 2 then m + 9 else m - 3
  y' * 365 + y' / 4 - y' / 100 + y' / 400 + (153 * m' + 2) / 5 + (d - 1)

/-- `Date.prototype.getTime` for the midnight dates produced by
`parseUKDate` (year ≥ 2000): milliseconds since the Unix epoch, the host
timezone taken as UTC.  719468 is the day number of 1970-01-01. -/
def dateGetTime (dt : UKDate) : Int :=
  (((daysSinceEpochMar dt.year.toNat dt.month.toNat dt.day.toNat : Nat) : Int) - 719468) * 86400000

/-! ### The listing data model and the visibility policy -/

/-- A car listing row.  `name`, `soldDate` and `updatedAt` are optional
strings (`none` = absent/null); `year` and `price` hold the
`Number`-coerced values the handlers store; fields no modelled operation
reads are omitted (see the header). -/
structure Car where
  name : Option String := none
  year : JsNum := JsNum.nan
  price : JsNum := JsNum.nan
  garageId : Option String := none
  photos : List String := []
  sold : Bool := false
  soldDate : Option String := none
  updatedAt : Option String := none
deriving DecidableEq, Repr

/-- `SOLD_HIDE_DAYS` (src/server.js line 39). -/
def SOLD_HIDE_DAYS : Int := 7

/-- `hideAfterMs = SOLD_HIDE_DAYS * 24 * 60 * 60 * 1000`. -/
def hideAfterMs : Int := SOLD_HIDE_DAYS * 24 * 60 * 60 * 1000

/-- `soldTooOld` (src/server.js lines 58–65): a car is too old exactly when
it has a truthy `soldDate` that parses and lies strictly more than
`hideAfterMs` before `now`.  `now` is `Date.now()` in milliseconds. -/
def soldTooOld (car : Car) (now : Int) : Bool :=
  if optFalsy car.soldDate then false
  else
    match parseUKDate car.soldDate with
    | none => false
    | some d => decide (now - dateGetTime d > hideAfterMs)

/-- The public listing read (`GET /cars` in every variant): all cars minus
the ones `soldTooOld` hides. -/
def listPublic (cars : List Car) (now : Int) : List Car :=
  cars.filter (fun c => !soldTooOld c now)

/-! ### Payloads, credentials and responses -/

/-- The JSON body of `POST /cars` as the handlers consume it.  `year` and
`price` hold the result of the immediate `Number(data.…)` coercion the
handlers apply; `photos` is `none` when the field is not an array; `sold`
is restricted to a JSON boolean (any present boolean survives the
"present and non-blank" copy test, since `String(b).trim()` is never
empty). -/
structure Payload where
  name : Option String := none
  garageId : Option String := none
  year : JsNum := JsNum.nan
  price : JsNum := JsNum.nan
  photos : Option (List String) := none
  sold : Option Bool := none
  soldDate : Option String := none
deriving DecidableEq, Repr

/-- `isAdmin`: the trimmed `x-garage-key` header must equal `ADMIN_KEY`. -/
def isAdmin (key adminKey : String) : Bool := jsTrimStr key == adminKey

/-- The JSON responses the modelled endpoints can produce. -/
inductive ApiResp where
  | forbidden
  | missingName
  | notFound
  | invalid (msg : String)
  | okCreated
  | okSold (soldDate : Option String)
deriving DecidableEq, Repr

/-! ### Store operations -/

/-- The row `dbInsertCar` (src/server.js lines 203–244) inserts: trimmed
name and garageId, photos trimmed and filtered of falsy entries,
`sold = false`, `soldDate = null`. -/
def dbInsertRow (p : Payload) (iso : String) : Car :=
  { name := some (jsTrimStr (jsStr p.name))
    year := p.year
    price := p.price
    garageId := some (jsTrimStr (jsStr p.garageId))
    photos := ((p.photos.getD []).map jsTrimStr).filter (fun x => x != "")
    sold := false
    soldDate := none
    updatedAt := some iso }

/-- The car object the file-backed `POST /cars` handler (src/server.js
lines 825–854) pushes: required fields plus the optional fields copied when
present and non-blank (here `sold` and `soldDate`; the other optional
pass-through fields are omitted from `Car`). -/
def fileNewCar (p : Payload) (iso : String) : Car :=
  { name := some (jsTrimStr (jsStr p.name))
    year := p.year
    price := p.price
    garageId := some (jsTrimStr (jsStr p.garageId))
    photos := p.photos.getD []
    sold := p.sold.getD false
    soldDate :=
      match p.soldDate with
      | some v => if jsTrimStr v = "" then none else some v
      | none => none
    updatedAt := some iso }

/-- `dbGetCarByName` (src/server.js lines 191–201, src/unnamed/part_000
lines 252–262): `select * … eq("name", name) … limit(1)` — the first row
whose `name` equals the query exactly. -/
def dbGetCarByName (store : List Car) (nm : String) : Option Car :=
  store.find? (fun c => c.name == some nm)

/-- The file-backed by-name lookup (`GET /car-data`, src/server.js lines
778–779): first car whose lower-cased name equals the lower-cased query. -/
def fileFindByName (store : List Car) (nm : String) : Option Car :=
  store.find? (fun c => jsLower (jsStr c.name) == jsLower nm)

/-- `dbMarkSoldByName` (src/server.js lines 256–273): `update {sold: true,
soldDate: today, updatedAt} … eq("name", name) … select("soldDate")
… limit(1)`.  Every row whose name matches exactly is overwritten; the
returned value is the first updated row's `soldDate`, or `today` when no
row matched. -/
def dbMarkSoldByName (today iso : String) (store : List Car) (nm : String) :
    List Car × Option String :=
  let store' := store.map (fun c =>
    if c.name == some nm then
      { c with sold := true, soldDate := some today, updatedAt := some iso }
    else c)
  let ret :=
    match (store'.filter (fun c => c.name == some nm)).head? with
    | some u => u.soldDate
    | none => some today
  (store', ret)

/-- `dbMarkSoldByName` of src/unnamed/part_000 (lines 305–319): same update
without a `select`; the return value is always the freshly computed
`today` string. -/
def dbMarkSoldByName0 (today iso : String) (store : List Car) (nm : String) :
    List Car × String :=
  (store.map (fun c =>
    if c.name == some nm then
      { c with sold := true, soldDate := some today, updatedAt := some iso }
    else c), today)

/-- The predicate of the file-backed mark-sold `findIndex` (src/server.js
line 896): case-insensitive name match. -/
def soldMatch (nm : String) (c : Car) : Bool :=
  jsLower (jsStr c.name) == jsLower nm

/-- `Array.prototype.findIndex` (absent match modelled as `none` instead of
`-1`). -/
def jsFindIndex (p : Car → Bool) : List Car → Option Nat
  | [] => none
  | c :: cs => if p c then some 0 else (jsFindIndex p cs).map (· + 1)

/-- In-place update of the element at an index (the JS `cars[idx].… = …`
mutations followed by writing the array back). -/
def updateAt (i : Nat) (f : Car → Car) : List Car → List Car
  | [] => []
  | c :: cs =>
    match i with
    | 0 => f c :: cs
    | j + 1 => c :: updateAt j f cs

/-- The field mutations of the file-backed mark-sold (src/server.js lines
900–902): `sold = true`, `soldDate = soldDate || todayUK()`, fresh
`updatedAt`. -/
def soldUpdate (today iso : String) (c : Car) : Car :=
  { c with sold := true, soldDate := some (jsOrElse c.soldDate today), updatedAt := some iso }

/-- The file-backed mark-sold store mutation and response (src/server.js
lines 894–905): find the car case-insensitively, 404 when absent, else
apply `soldUpdate` in place and answer with the resulting `soldDate`. -/
def fileMarkSold (today iso nm : String) (store : List Car) : List Car × ApiResp :=
  match jsFindIndex (soldMatch nm) store with
  | none => (store, ApiResp.notFound)
  | some idx =>
    let store' := updateAt idx (soldUpdate today iso) store
    (store', ApiResp.okSold ((store'.get? idx).bind Car.soldDate))

/-! ### HTTP handlers -/

/-- `POST /cars-sold` of the Supabase-backed server (src/server.js lines
397–410): admin check, name check, then `dbMarkSoldByName` and an
unconditional success response. -/
def carsSoldHandlerDb (key adminKey rawName today iso : String) (store : List Car) :
    List Car × ApiResp :=
  if !isAdmin key adminKey then (store, ApiResp.forbidden)
  else
    let nm := jsTrimStr rawName
    if nm = "" then (store, ApiResp.missingName)
    else
      let r := dbMarkSoldByName today iso store nm
      (r.1, ApiResp.okSold r.2)

/-- `POST /cars-sold` of src/unnamed/part_000 (lines 443–457): the value
returned by its `dbMarkSoldByName` is the non-empty `today` string, so the
`if (!car)` not-found branch can never fire, and the reported `soldDate`
is `car.soldDate || todayUK()` where `car` is a string — i.e. `today`. -/
def carsSoldHandler0 (key adminKey rawName today iso : String) (store : List Car) :
    List Car × ApiResp :=
  if !isAdmin key adminKey then (store, ApiResp.forbidden)
  else
    let nm := jsTrimStr rawName
    if nm = "" then (store, ApiResp.missingName)
    else
      let r := dbMarkSoldByName0 today iso store nm
      if r.2 = "" then (r.1, ApiResp.notFound)
      else (r.1, ApiResp.okSold (some today))

/-- `POST /cars-sold` of the file-backed server (src/server.js lines
888–906). -/
def carsSoldHandlerFile (key adminKey rawName today iso : String) (store : List Car) :
    List Car × ApiResp :=
  if !isAdmin key adminKey then (store, ApiResp.forbidden)
  else
    let nm := jsTrimStr rawName
    if nm = "" then (store, ApiResp.missingName)
    else fileMarkSold today iso nm store

/-- `POST /cars` of the Supabase-backed server (src/server.js lines
344–373): admin check, then the four validations (photos filtered of falsy
entries before the emptiness check), then `dbInsertCar`. -/
def postCarsDb (key adminKey : String) (data : Payload) (iso : String) (store : List Car) :
    List Car × ApiResp :=
  if !isAdmin key adminKey then (store, ApiResp.forbidden)
  else
    let name := jsTrimStr (jsStr data.name)
    let garageId := jsTrimStr (jsStr data.garageId)
    let year := data.year
    let price := data.price
    let photos := (data.photos.getD []).filter (fun x => x != "")
    if name = "" ∨ garageId = "" then (store, ApiResp.invalid "Missing name/garageId")
    else if !year.isIntegerB then (store, ApiResp.invalid "Year must be integer")
    else if !price.isFiniteB || price.leZeroB then (store, ApiResp.invalid "Price must be > 0")
    else if photos.length = 0 then (store, ApiResp.invalid "At least 1 photo required")
    else (store ++ [dbInsertRow data iso], ApiResp.okCreated)

/-- `POST /cars` of the file-backed server (src/server.js lines 801–858):
identical validations except that `photos` is used raw, without the
`filter(Boolean)`. -/
def postCarsFile (key adminKey : String) (data : Payload) (iso : String) (store : List Car) :
    List Car × ApiResp :=
  if !isAdmin key adminKey then (store, ApiResp.forbidden)
  else
    let name := jsTrimStr (jsStr data.name)
    let garageId := jsTrimStr (jsStr data.garageId)
    let year := data.year
    let price := data.price
    let photos := data.photos.getD []
    if name = "" ∨ garageId = "" then (store, ApiResp.invalid "Missing name/garageId")
    else if !year.isIntegerB then (store, ApiResp.invalid "Year must be integer")
    else if !price.isFiniteB || price.leZeroB then (store, ApiResp.invalid "Price must be > 0")
    else if photos.length = 0 then (store, ApiResp.invalid "At least 1 photo required")
    else (store ++ [fileNewCar data iso], ApiResp.okCreated)

/-- `dbDeleteCarByName` (src/server.js lines 246–254): delete every row
whose name matches exactly. -/
def dbDeleteByName (store : List Car) (nm : String) : List Car :=
  store.filter (fun c => !(c.name == some nm))

/-- The file-backed delete (src/server.js lines 869–874): keep every car
whose lower-cased name differs from the lower-cased query. -/
def fileDeleteByName (store : List Car) (nm : String) : List Car :=
  store.filter (fun c => !(jsLower (jsStr c.name) == jsLower nm))

/-! ### The store-operation state machine (for the one-way `sold` flag) -/

/-- Every in-scope store operation, across both backends; read operations
are included and leave the store untouched. -/
inductive StoreOp where
  | insertDb (p : Payload) (iso : String)
  | insertFile (p : Payload) (iso : String)
  | deleteDb (nm : String)
  | deleteFile (nm : String)
  | markSoldDb (nm today iso : String)
  | markSoldFile (nm today iso : String)
  | readList
  | readByName (nm : String)

/-- Effect of each operation on the backing store. -/
def applyOp : StoreOp → List Car → List Car
  | .insertDb p iso, s => s ++ [dbInsertRow p iso]
  | .insertFile p iso, s => s ++ [fileNewCar p iso]
  | .deleteDb nm, s => dbDeleteByName s nm
  | .deleteFile nm, s => fileDeleteByName s nm
  | .markSoldDb nm today iso, s => (dbMarkSoldByName today iso s nm).1
  | .markSoldFile nm today iso, s => (fileMarkSold today iso nm s).1
  | .readList, s => s
  | .readByName _, s => s

/-! ### A DD/MM/YYYY formatter (for quantifying over well-formed inputs) -/

def digitChar (k : Nat) : Char :=
  match k with
  | 0 => '0' | 1 => '1' | 2 => '2' | 3 => '3' | 4 => '4'
  | 5 => '5' | 6 => '6' | 7 => '7' | 8 => '8' | _ => '9'

/-- Decimal digits of `n`, most significant first, with enough fuel to
finish (structural recursion so that concrete instances evaluate). -/
def natDigitsAux : Nat → Nat → List Char
  | 0, _ => []
  | fuel + 1, n =>
    if n < 10 then [digitChar n]
    else natDigitsAux fuel (n / 10) ++ [digitChar (n % 10)]

/-- Decimal digits of `n`, most significant first (`n` itself is always
enough fuel, since `10^n > n`). -/
def natDigits (n : Nat) : List Char := natDigitsAux (n + 1) n

/-- Two-digit zero-padded numeral (`String(x).padStart(2, "0")` as used by
`todayUK`). -/
def pad2 (n : Nat) : List Char :=
  if n < 10 then '0' :: natDigits n else natDigits n

/-- The `DD/MM/YYYY` rendering of a (day, month, year) triple. -/
def ukFormat (d m y : Nat) : String :=
  String.mk (pad2 d ++ '/' :: (pad2 m ++ '/' :: natDigits y))

/-! ### Helper lemmas: digits, trimming, splitting -/

theorem digitChar_toNat (k : Nat) (h : k < 10) : (digitChar k).toNat = k + 48 := by
  interval_cases k <;> decide

theorem digitChar_isDigit (k : Nat) : (digitChar k).isDigit = true := by
  unfold digitChar
  split <;> decide

theorem digitsToNat_append_digit (A : List Char) (c : Char) :
    digitsToNat (A ++ [c]) = 10 * digitsToNat A + (c.toNat - 48) := by
  unfold digitsToNat
  rw [List.foldl_append]
  rfl

theorem natDigitsAux_spec (fuel : Nat) : ∀ n : Nat, n < 10 ^ fuel → 0 < fuel →
    natDigitsAux fuel n ≠ [] ∧ (∀ c ∈ natDigitsAux fuel n, c.isDigit = true) ∧
      digitsToNat (natDigitsAux fuel n) = n := by
  induction fuel with
  | zero => intro n _ h2; omega
  | succ fuel ih =>
    intro n hn _
    by_cases h10 : n < 10
    · refine ⟨by simp [natDigitsAux, h10], ?_, ?_⟩
      · intro c hc
        simp [natDigitsAux, h10] at hc
        subst hc
        exact digitChar_isDigit n
      · simp [natDigitsAux, h10, digitsToNat, List.foldl]
        have := digitChar_toNat n h10
        omega
    · have hfuel : 0 < fuel := by
        rcases Nat.eq_zero_or_pos fuel with h | h
        · subst h; simp at hn; omega
        · exact h
      have hdiv : n / 10 < 10 ^ fuel := by
        have : n < 10 ^ fuel * 10 := by
          calc n < 10 ^ (fuel + 1) := hn
          _ = 10 ^ fuel * 10 := by ring
        omega
      obtain ⟨hne, hdig, hval⟩ := ih (n / 10) hdiv hfuel
      refine ⟨?_, ?_, ?_⟩
      · simp [natDigitsAux, h10]
      · intro c hc
        simp only [natDigitsAux, h10, if_false] at hc
        rcases List.mem_append.mp hc with h | h
        · exact hdig c h
        · rw [List.mem_singleton.mp h]
          exact digitChar_isDigit (n % 10)
      · simp only [natDigitsAux, h10, if_false]
        rw [digitsToNat_append_digit, hval, digitChar_toNat (n % 10) (by omega)]
        omega

theorem natDigits_spec (n : Nat) :
    natDigits n ≠ [] ∧ (∀ c ∈ natDigits n, c.isDigit = true) ∧
      digitsToNat (natDigits n) = n := by
  apply natDigitsAux_spec (n + 1) n ?_ (by omega)
  calc n < 10 ^ n := by
        rcases Nat.eq_zero_or_pos n with h | h
        · subst h; decide
        · exact Nat.lt_pow_self (by omega) n
  _ ≤ 10 ^ (n + 1) := Nat.pow_le_pow_right (by omega) (by omega)

theorem pad2_spec (n : Nat) :
    pad2 n ≠ [] ∧ (∀ c ∈ pad2 n, c.isDigit = true) ∧ digitsToNat (pad2 n) = n := by
  obtain ⟨h1, h2, h3⟩ := natDigits_spec n
  unfold pad2
  split
  · refine ⟨by simp, ?_, ?_⟩
    · intro c hc
      rcases List.mem_cons.mp hc with h | h
      · subst h; decide
      · exact h2 c h
    · show digitsToNat ('0' :: natDigits n) = n
      unfold digitsToNat at h3 ⊢
      simpa using h3
  · exact ⟨h1, h2, h3⟩

theorem not_ws_of_digit (c : Char) (h : c.isDigit = true) : isJsWs c = false := by
  cases hw : isJsWs c
  · rfl
  · exfalso
    simp only [isJsWs, Bool.or_eq_true, beq_iff_eq] at hw
    rcases hw with ((h1 | h1) | h1) | h1 <;> (subst h1; exact absurd h (by decide))

theorem dropWhile_eq_self_of_not (p : Char → Bool) (l : List Char)
    (h : ∀ c ∈ l, p c = false) : l.dropWhile p = l := by
  cases l with
  | nil => rfl
  | cons c cs =>
    rw [List.dropWhile_cons, h c (List.mem_cons_self c cs)]
    simp

theorem jsTrimList_eq_self (l : List Char) (h : ∀ c ∈ l, isJsWs c = false) :
    jsTrimList l = l := by
  unfold jsTrimList
  rw [dropWhile_eq_self_of_not isJsWs l h,
      dropWhile_eq_self_of_not isJsWs l.reverse (fun c hc => h c (List.mem_reverse.mp hc)),
      List.reverse_reverse]

theorem splitSlash_no_slash (l : List Char) (h : ∀ c ∈ l, ¬ c = '/') :
    splitSlash l = [l] := by
  induction l with
  | nil => rfl
  | cons c cs ih =>
    have hc : ¬ c = '/' := h c (List.mem_cons_self c cs)
    simp only [splitSlash, hc, if_false]
    rw [ih (fun x hx => h x (List.mem_cons_of_mem c hx))]

theorem splitSlash_append (A rest : List Char) (h : ∀ c ∈ A, ¬ c = '/') :
    splitSlash (A ++ '/' :: rest) = A :: splitSlash rest := by
  induction A with
  | nil => simp [splitSlash]
  | cons a A' ih =>
    have ha : ¬ a = '/' := h a (List.mem_cons_self a A')
    have hrec : splitSlash (List.append A' ('/' :: rest)) = A' :: splitSlash rest :=
      ih (fun x hx => h x (List.mem_cons_of_mem a hx))
    simp only [List.cons_append, splitSlash, ha, if_false]
    rw [hrec]

theorem takeWhile_eq_self_of (p : Char → Bool) (l : List Char)
    (h : ∀ c ∈ l, p c = true) : l.takeWhile p = l :=
  List.takeWhile_eq_self_iff.mpr h

theorem dropWhile_eq_nil_of (p : Char → Bool) (l : List Char)
    (h : ∀ c ∈ l, p c = true) : l.dropWhile p = [] :=
  List.dropWhile_eq_nil_iff.mpr (fun c hc => h c hc)

/-! ### Helper lemmas: `Number` on digit strings, the parser pipeline -/

theorem string_mk_toList (l : List Char) : (String.mk l).toList = l := rfl

theorem digit_ne_slash (c : Char) (h : c.isDigit = true) : ¬ c = '/' := by
  intro hc
  subst hc
  exact absurd h (by decide)

theorem parseUnsignedDec_digits (l : List Char) (h0 : l ≠ [])
    (hd : ∀ c ∈ l, c.isDigit = true) :
    parseUnsignedDec l = some (digitsToNat l, 0) := by
  unfold parseUnsignedDec
  rw [takeWhile_eq_self_of Char.isDigit l hd, dropWhile_eq_nil_of Char.isDigit l hd]
  simp [h0]

theorem parseDecBody_digits (l : List Char) (h0 : l ≠ [])
    (hd : ∀ c ∈ l, c.isDigit = true) :
    parseDecBody false l = JsNum.dec ((digitsToNat l : Nat) : Int) 0 := by
  unfold parseDecBody
  rw [if_neg ?notinf, parseUnsignedDec_digits l h0 hd]
  case notinf =>
    intro h
    have hI : 'I' ∈ l := by rw [h]; exact List.mem_cons_self _ _
    exact absurd (hd 'I' hI) (by decide)
  rfl

theorem parseSignedDec_digits (l : List Char) (h0 : l ≠ [])
    (hd : ∀ c ∈ l, c.isDigit = true) :
    parseSignedDec l = JsNum.dec ((digitsToNat l : Nat) : Int) 0 := by
  rw [parseSignedDec.eq_def]
  split
  · exact absurd (hd '+' (List.mem_cons_self _ _)) (by decide)
  · exact absurd (hd '-' (List.mem_cons_self _ _)) (by decide)
  · exact parseDecBody_digits _ h0 hd

theorem parseNumericLit_digits (l : List Char) (h0 : l ≠ [])
    (hd : ∀ c ∈ l, c.isDigit = true) :
    parseNumericLit l = JsNum.dec ((digitsToNat l : Nat) : Int) 0 := by
  rw [parseNumericLit.eq_def]
  split
  · next c2 ds =>
    have hc2 : c2.isDigit = true := by
      apply hd
      exact List.mem_cons_of_mem _ (List.mem_cons_self _ _)
    rw [if_neg ?hx, if_neg ?ho, if_neg ?hb]
    case hx => rintro (h | h) <;> (subst h; exact absurd hc2 (by decide))
    case ho => rintro (h | h) <;> (subst h; exact absurd hc2 (by decide))
    case hb => rintro (h | h) <;> (subst h; exact absurd hc2 (by decide))
    exact parseSignedDec_digits _ h0 hd
  · exact parseSignedDec_digits _ h0 hd

theorem jsNumberL_digits (l : List Char) (h0 : l ≠ [])
    (hd : ∀ c ∈ l, c.isDigit = true) :
    jsNumberL l = JsNum.dec ((digitsToNat l : Nat) : Int) 0 := by
  unfold jsNumberL
  rw [jsTrimList_eq_self l (fun c hc => not_ws_of_digit c (hd c hc)), if_neg h0]
  exact parseNumericLit_digits l h0 hd

theorem isIntegerB_dec0 (n : Int) : (JsNum.dec n 0).isIntegerB = true := by
  simp [JsNum.isIntegerB]

theorem toInt_dec0 (n : Int) : (JsNum.dec n 0).toInt = n := by
  simp [JsNum.toInt]

theorem daysInMonth_lb (y m : Int) : 28 ≤ daysInMonth y m := by
  unfold daysInMonth
  split
  · split <;> omega
  · split <;> omega

theorem mkJsDate_of_le (y m d : Int) (h : d ≤ daysInMonth y m) :
    mkJsDate y m d = ⟨y, m, d⟩ := by
  unfold mkJsDate
  rw [if_pos h]

theorem mkJsDate_ne_of_gt (y m d : Int) (h : daysInMonth y m < d) :
    ¬ ((mkJsDate y m d).year = y ∧ (mkJsDate y m d).month = m ∧
       (mkJsDate y m d).day = d) := by
  unfold mkJsDate
  rw [if_neg (by omega)]
  split
  · rintro ⟨h1, -, -⟩
    simp only [] at h1
    omega
  · rintro ⟨-, h2, -⟩
    simp only [] at h2
    omega

theorem parseUKDate_ukFormat (d m y : Nat) (hd1 : 1 ≤ d) (hd31 : d ≤ 31)
    (hm1 : 1 ≤ m) (hm12 : m ≤ 12) (hy1 : 2000 ≤ y) (hy2 : y ≤ 2100) :
    parseUKDate (some (ukFormat d m y)) =
      if (mkJsDate (y : Int) (m : Int) (d : Int)).year = (y : Int) ∧
         (mkJsDate (y : Int) (m : Int) (d : Int)).month = (m : Int) ∧
         (mkJsDate (y : Int) (m : Int) (d : Int)).day = (d : Int)
      then some (mkJsDate (y : Int) (m : Int) (d : Int)) else none := by
  obtain ⟨hdne, hddig, hdval⟩ := pad2_spec d
  obtain ⟨hmne, hmdig, hmval⟩ := pad2_spec m
  obtain ⟨hyne, hydig, hyval⟩ := natDigits_spec y
  have hwsL : ∀ c ∈ pad2 d ++ '/' :: (pad2 m ++ '/' :: natDigits y), isJsWs c = false := by
    intro c hc
    rcases List.mem_append.mp hc with h | h
    · exact not_ws_of_digit c (hddig c h)
    · rcases List.mem_cons.mp h with h | h
      · subst h; decide
      · rcases List.mem_append.mp h with h | h
        · exact not_ws_of_digit c (hmdig c h)
        · rcases List.mem_cons.mp h with h | h
          · subst h; decide
          · exact not_ws_of_digit c (hydig c h)
  have hne : ¬ (ukFormat d m y = "") := by
    intro h
    have h2 : (ukFormat d m y).toList = [] := by rw [h]; rfl
    unfold ukFormat at h2
    rw [string_mk_toList] at h2
    rcases List.append_eq_nil.mp h2 with ⟨h3, -⟩
    exact hdne h3
  simp only [parseUKDate]
  rw [if_neg hne]
  unfold ukFormat
  rw [string_mk_toList,
      jsTrimList_eq_self _ hwsL,
      splitSlash_append (pad2 d) _ (fun c hc => digit_ne_slash c (hddig c hc)),
      splitSlash_append (pad2 m) _ (fun c hc => digit_ne_slash c (hmdig c hc)),
      splitSlash_no_slash (natDigits y) (fun c hc => digit_ne_slash c (hydig c hc))]
  dsimp only
  rw [jsNumberL_digits (pad2 d) hdne hddig,
      jsNumberL_digits (pad2 m) hmne hmdig,
      jsNumberL_digits (natDigits y) hyne hydig,
      hdval, hmval, hyval]
  rw [if_pos ⟨isIntegerB_dec0 _, isIntegerB_dec0 _, isIntegerB_dec0 _⟩]
  rw [toInt_dec0, toInt_dec0, toInt_dec0]
  rw [if_neg (by omega)]

/-! ### Helper lemmas: visibility policy and store mutations -/

theorem parseUKDate_empty : parseUKDate (some "") = none := rfl

theorem soldTooOld_parsed (car : Car) (s : String) (dt : UKDate) (now : Int)
    (hs : car.soldDate = some s) (hp : parseUKDate (some s) = some dt) :
    soldTooOld car now = decide (now - dateGetTime dt > hideAfterMs) := by
  have hne : ¬ (s = "") := by
    intro h
    subst h
    rw [parseUKDate_empty] at hp
    exact Option.noConfusion hp
  unfold soldTooOld
  rw [hs]
  rw [if_neg (by simp [optFalsy, hne] : ¬ (optFalsy (some s) = true))]
  rw [hp]

theorem soldTooOld_noparse (car : Car) (now : Int)
    (h : car.soldDate = none ∨ ∃ s, car.soldDate = some s ∧ parseUKDate (some s) = none) :
    soldTooOld car now = false := by
  unfold soldTooOld
  rcases h with h | ⟨s, hs, hp⟩
  · rw [h]
    rfl
  · rw [hs]
    by_cases he : s = ""
    · subst he
      rfl
    · rw [if_neg (by simp [optFalsy, he] : ¬ (optFalsy (some s) = true)), hp]

theorem updateAt_get_self (f : Car → Car) : ∀ (l : List Car) (i : Nat) (c : Car),
    l.get? i = some c → (updateAt i f l).get? i = some (f c) := by
  intro l
  induction l with
  | nil =>
    intro i c h
    simp at h
  | cons a l ih =>
    intro i c h
    cases i with
    | zero =>
      rw [List.get?_cons_zero] at h
      injection h with h
      subst h
      rfl
    | succ j =>
      rw [List.get?_cons_succ] at h
      show (a :: updateAt j f l).get? (j + 1) = some (f c)
      rw [List.get?_cons_succ]
      exact ih j c h

theorem jsFindIndex_updateAt (p : Car → Bool) (f : Car → Car)
    (hpf : ∀ a, p (f a) = p a) : ∀ (l : List Car) (i : Nat),
    jsFindIndex p (updateAt i f l) = jsFindIndex p l := by
  intro l
  induction l with
  | nil => intro i; cases i <;> rfl
  | cons a l ih =>
    intro i
    cases i with
    | zero =>
      show jsFindIndex p (f a :: l) = jsFindIndex p (a :: l)
      simp [jsFindIndex, hpf a]
    | succ j =>
      show jsFindIndex p (a :: updateAt j f l) = jsFindIndex p (a :: l)
      simp [jsFindIndex, ih j]

theorem updateAt_mem (f : Car → Car) : ∀ (l : List Car) (i : Nat) (c : Car),
    c ∈ updateAt i f l → c ∈ l ∨ ∃ a, a ∈ l ∧ c = f a := by
  intro l
  induction l with
  | nil =>
    intro i c h
    cases i <;> simp [updateAt] at h
  | cons b l ih =>
    intro i c h
    cases i with
    | zero =>
      simp only [updateAt] at h
      rcases List.mem_cons.mp h with h | h
      · exact Or.inr ⟨b, List.mem_cons_self _ _, h⟩
      · exact Or.inl (List.mem_cons_of_mem _ h)
    | succ j =>
      simp only [updateAt] at h
      rcases List.mem_cons.mp h with h | h
      · subst h
        exact Or.inl (List.mem_cons_self _ _)
      · rcases ih j c h with h | ⟨a, ha, hc⟩
        · exact Or.inl (List.mem_cons_of_mem _ h)
        · exact Or.inr ⟨a, List.mem_cons_of_mem _ ha, hc⟩

theorem find?_isSome_of (p : Car → Bool) : ∀ (l : List Car) (x : Car),
    x ∈ l → p x = true → (l.find? p).isSome = true := by
  intro l
  induction l with
  | nil =>
    intro x h
    simp at h
  | cons a l ih =>
    intro x hx hp
    by_cases hpa : p a = true
    · rw [List.find?_cons_of_pos _ hpa]
      rfl
    · rw [List.find?_cons_of_neg _ (by simpa using hpa)]
      rcases List.mem_cons.mp hx with h | h
      · subst h
        exact absurd hp hpa
      · exact ih x h hp

theorem daysInMonth_ub (y m : Int) : daysInMonth y m ≤ 31 := by
  unfold daysInMonth
  split
  · split <;> omega
  · split <;> omega

/-! ### Claims about the date parser and visibility policy -/

/-- C4: the date parser accepts exactly the real calendar dates.  For every
day/month/year in range (`1 ≤ d ≤ 31`, `1 ≤ m ≤ 12`, `2000 ≤ y ≤ 2100`)
denoting a real calendar date (`d` at most the month length), parsing the
`DD/MM/YYYY` rendering succeeds and reads back the same day, month and
year; a day-of-month overflow (in-range components that do not denote a
real date) is rejected; and `"31/02/2026"`, `"00/01/2020"`, `"1/1/99"`,
`""` and an absent value all fail to parse. -/
theorem parseUKDate_exactly_real_dates :
    (∀ d m y : Nat, 1 ≤ d → 1 ≤ m → m ≤ 12 → 2000 ≤ y → y ≤ 2100 →
        (d : Int) ≤ daysInMonth (y : Int) (m : Int) →
        parseUKDate (some (ukFormat d m y)) = some ⟨(y : Int), (m : Int), (d : Int)⟩)
    ∧ (∀ d m y : Nat, 1 ≤ m → m ≤ 12 → 2000 ≤ y → y ≤ 2100 → d ≤ 31 →
        daysInMonth (y : Int) (m : Int) < (d : Int) →
        parseUKDate (some (ukFormat d m y)) = none)
    ∧ parseUKDate (some "31/02/2026") = none
    ∧ parseUKDate (some "00/01/2020") = none
    ∧ parseUKDate (some "1/1/99") = none
    ∧ parseUKDate (some "") = none
    ∧ parseUKDate none = none := by
  refine ⟨?_, ?_, by decide, by decide, by decide, rfl, rfl⟩
  · intro d m y hd1 hm1 hm12 hy1 hy2 hdim
    have hub := daysInMonth_ub (y : Int) (m : Int)
    have hd31 : d ≤ 31 := by omega
    rw [parseUKDate_ukFormat d m y hd1 hd31 hm1 hm12 hy1 hy2,
        mkJsDate_of_le _ _ _ hdim]
    rw [if_pos ⟨rfl, rfl, rfl⟩]
  · intro d m y hm1 hm12 hy1 hy2 hd31 hdim
    have hlb := daysInMonth_lb (y : Int) (m : Int)
    have hd1 : 1 ≤ d := by omega
    rw [parseUKDate_ukFormat d m y hd1 hd31 hm1 hm12 hy1 hy2,
        if_neg (mkJsDate_ne_of_gt _ _ _ hdim)]

/-- Witness for C4: the 2024 leap day round-trips, and the formatter indeed
produces `DD/MM/YYYY` strings. -/
theorem parseUKDate_exactly_real_dates_witness :
    ukFormat 29 2 2024 = "29/02/2024"
    ∧ parseUKDate (some (ukFormat 29 2 2024)) = some ⟨2024, 2, 29⟩
    ∧ parseUKDate (some (ukFormat 31 2 2026)) = none :=
  ⟨by decide,
   parseUKDate_exactly_real_dates.1 29 2 2024 (by decide) (by decide) (by decide)
     (by decide) (by decide) (by decide),
   parseUKDate_exactly_real_dates.2.1 31 2 2026 (by decide) (by decide) (by decide)
     (by decide) (by decide) (by decide)⟩

/-- C3: for a listing whose `soldDate` parses, visibility is decided by a
strict comparison against the 7-day window: hidden exactly when
`now - soldDate > 7 days` in milliseconds, so it is still visible exactly
at the boundary and hidden 7 days plus one second after the sold date. -/
theorem soldTooOld_seven_day_window (car : Car) (s : String) (dt : UKDate) (now : Int)
    (hs : car.soldDate = some s) (hp : parseUKDate (some s) = some dt) :
    (soldTooOld car now = true ↔ hideAfterMs < now - dateGetTime dt)
    ∧ soldTooOld car (dateGetTime dt + 7 * 24 * 60 * 60 * 1000) = false
    ∧ soldTooOld car (dateGetTime dt + 7 * 24 * 60 * 60 * 1000 + 1000) = true := by
  refine ⟨?_, ?_, ?_⟩
  · rw [soldTooOld_parsed car s dt now hs hp]
    simp only [decide_eq_true_eq, gt_iff_lt]
  · rw [soldTooOld_parsed car s dt _ hs hp]
    exact decide_eq_false (by simp only [hideAfterMs, SOLD_HIDE_DAYS]; omega)
  · rw [soldTooOld_parsed car s dt _ hs hp]
    exact decide_eq_true (by simp only [hideAfterMs, SOLD_HIDE_DAYS, gt_iff_lt]; omega)

/-- Witness for C3 at the listing sold on 01/01/2026. -/
theorem soldTooOld_seven_day_window_witness :
    (soldTooOld { soldDate := some "01/01/2026" } 0 = true ↔
      hideAfterMs < 0 - dateGetTime ⟨2026, 1, 1⟩)
    ∧ soldTooOld { soldDate := some "01/01/2026" }
        (dateGetTime ⟨2026, 1, 1⟩ + 7 * 24 * 60 * 60 * 1000) = false
    ∧ soldTooOld { soldDate := some "01/01/2026" }
        (dateGetTime ⟨2026, 1, 1⟩ + 7 * 24 * 60 * 60 * 1000 + 1000) = true :=
  soldTooOld_seven_day_window { soldDate := some "01/01/2026" } "01/01/2026"
    ⟨2026, 1, 1⟩ 0 rfl (by decide)

/-- C8: a listing with no `soldDate`, or with a `soldDate` string that fails
to parse, is treated as publicly visible by the visibility policy; the
policy is a total boolean function, so a parse failure never propagates to
its caller as an error. -/
theorem soldTooOld_false_on_missing_or_unparseable (car : Car) (now : Int)
    (h : car.soldDate = none ∨ ∃ s, car.soldDate = some s ∧ parseUKDate (some s) = none) :
    soldTooOld car now = false :=
  soldTooOld_noparse car now h

/-- Witness for C8: a sold listing whose recorded date is garbage stays
visible. -/
theorem soldTooOld_false_on_missing_or_unparseable_witness :
    soldTooOld { sold := true, soldDate := some "not-a-date" } 123456789 = false :=
  soldTooOld_false_on_missing_or_unparseable
    { sold := true, soldDate := some "not-a-date" } 123456789
    (Or.inr ⟨"not-a-date", rfl, by decide⟩)

/-! ### Claims about mark-sold -/

/-- A listing that already carries a `soldDate`. -/
def soldListing : Car := { name := some "A", sold := true, soldDate := some "01/01/2024" }

/-- C1 counterexample: the Supabase-backed `dbMarkSoldByName` does NOT
leave an existing `soldDate` unchanged — marking `soldListing`
(sold on 01/01/2024) sold again on 02/01/2024 overwrites the stored
`soldDate` with the new day and returns the new day, not the existing
value. -/
theorem dbMarkSold_overwrites_soldDate :
    ((dbMarkSoldByName "02/01/2024" "2024-01-02T09:00:00Z" [soldListing] "A").1.head?.bind
        Car.soldDate) = some "02/01/2024"
    ∧ (dbMarkSoldByName "02/01/2024" "2024-01-02T09:00:00Z" [soldListing] "A").2
        = some "02/01/2024"
    ∧ ¬ ((dbMarkSoldByName "02/01/2024" "2024-01-02T09:00:00Z" [soldListing] "A").2
        = some "01/01/2024") := by decide

/-- Reduction of the file-backed mark-sold handler once the admin check and
the name check pass. -/
theorem carsSoldHandlerFile_admin (key adminKey nm t i : String) (cars : List Car)
    (hk : isAdmin key adminKey = true) (hnm : ¬ (jsTrimStr nm = "")) :
    carsSoldHandlerFile key adminKey nm t i cars = fileMarkSold t i (jsTrimStr nm) cars := by
  unfold carsSoldHandlerFile
  rw [if_neg (by rw [hk]; decide), if_neg hnm]

/-- C1 amended: the FILE-backed mark-sold (`cars[idx].soldDate =
cars[idx].soldDate || todayUK()`) does keep an already-set non-empty
`soldDate` and returns it, so calling it twice (on any two days) answers
the same `soldDate` both times; the Supabase-backed `dbMarkSoldByName`
instead overwrites the date on every call (see the counterexample). -/
theorem fileMarkSold_soldDate_first_wins (cars : List Car)
    (nm key adminKey t1 i1 t2 i2 : String) (idx : Nat) (c : Car) (s : String)
    (hk : isAdmin key adminKey = true)
    (hnm : ¬ (jsTrimStr nm = ""))
    (hidx : jsFindIndex (soldMatch (jsTrimStr nm)) cars = some idx)
    (hc : cars.get? idx = some c)
    (hs : c.soldDate = some s) (hne : ¬ (s = "")) :
    (carsSoldHandlerFile key adminKey nm t1 i1 cars).2 = ApiResp.okSold (some s)
    ∧ (carsSoldHandlerFile key adminKey nm t2 i2
        (carsSoldHandlerFile key adminKey nm t1 i1 cars).1).2 = ApiResp.okSold (some s) := by
  have hred1 := carsSoldHandlerFile_admin key adminKey nm t1 i1 cars hk hnm
  have hup1 : (soldUpdate t1 i1 c).soldDate = some s := by
    simp [soldUpdate, hs, jsOrElse, hne]
  have hfile1 : fileMarkSold t1 i1 (jsTrimStr nm) cars =
      (updateAt idx (soldUpdate t1 i1) cars, ApiResp.okSold (some s)) := by
    unfold fileMarkSold
    rw [hidx]
    dsimp only
    rw [updateAt_get_self _ cars idx c hc]
    simp [hup1]
  have hstore1 := congrArg Prod.fst hfile1
  have hresp1 := congrArg Prod.snd hfile1
  refine ⟨by rw [hred1, hresp1], ?_⟩
  rw [hred1, hstore1]
  have hred2 :=
    carsSoldHandlerFile_admin key adminKey nm t2 i2 (updateAt idx (soldUpdate t1 i1) cars) hk hnm
  rw [hred2]
  have hidx2 : jsFindIndex (soldMatch (jsTrimStr nm))
      (updateAt idx (soldUpdate t1 i1) cars) = some idx := by
    rw [jsFindIndex_updateAt (soldMatch (jsTrimStr nm)) (soldUpdate t1 i1) (fun a => rfl) cars idx]
    exact hidx
  have hc2 : (updateAt idx (soldUpdate t1 i1) cars).get? idx = some (soldUpdate t1 i1 c) :=
    updateAt_get_self (soldUpdate t1 i1) cars idx c hc
  have hup2 : (soldUpdate t2 i2 (soldUpdate t1 i1 c)).soldDate = some s := by
    simp [soldUpdate, hs, jsOrElse, hne]
  unfold fileMarkSold
  rw [hidx2]
  dsimp only
  rw [updateAt_get_self _ _ idx (soldUpdate t1 i1 c) hc2]
  simp [hup2]

/-- Witness for the amended C1: marking the already-sold listing sold again
on two later days answers the original `soldDate` both times. -/
theorem fileMarkSold_soldDate_first_wins_witness :
    (carsSoldHandlerFile "k" "k" "a" "02/01/2024" "i1" [soldListing]).2
      = ApiResp.okSold (some "01/01/2024")
    ∧ (carsSoldHandlerFile "k" "k" "a" "03/01/2024" "i2"
        (carsSoldHandlerFile "k" "k" "a" "02/01/2024" "i1" [soldListing]).1).2
      = ApiResp.okSold (some "01/01/2024") :=
  fileMarkSold_soldDate_first_wins [soldListing] "a" "k" "k" "02/01/2024" "i1"
    "03/01/2024" "i2" 0 soldListing "01/01/2024" (by decide) (by decide) (by decide)
    (by decide) rfl (by decide)

/-- A store that holds no listing named `Ghost`. -/
def ghostFreeStore : List Car := [{ name := some "Another Car", sold := false }]

/-- C2, evaluated at the failing input: with a valid admin key and the name
`Ghost` absent from the store, both Supabase-backed `POST /cars-sold`
handlers answer `200 {success: true, soldDate: today}` instead of the 404
NotFound the spec requires (in `src/unnamed/part_000` the `if (!car)`
not-found branch can never fire because `dbMarkSoldByName` always returns
the non-empty `today` string); the file-backed handler of the same corpus
does answer NotFound. -/
theorem carsSold_missing_listing_reports_success :
    (carsSoldHandlerDb "k" "k" "Ghost" "05/10/2026" "2026-10-05T00:00:00Z" ghostFreeStore).2
      = ApiResp.okSold (some "05/10/2026")
    ∧ (carsSoldHandler0 "k" "k" "Ghost" "05/10/2026" "2026-10-05T00:00:00Z" ghostFreeStore).2
      = ApiResp.okSold (some "05/10/2026")
    ∧ (carsSoldHandlerFile "k" "k" "Ghost" "05/10/2026" "2026-10-05T00:00:00Z" ghostFreeStore).2
      = ApiResp.notFound := by decide

/-! ### Claims about the parser's acceptance conditions (C5) -/

/-- C5 counterexample: the first component of `"2.0/01/2020"` carries a
fractional character, yet the parser accepts the string — the component
check is `Number(...)` plus `Number.isInteger`, which admits any numeral
whose value is an integer, not only plain integer spellings. -/
theorem parseUKDate_accepts_fractional_syntax :
    parseUKDate (some "2.0/01/2020") = some ⟨2020, 1, 2⟩
    ∧ '.' ∈ ("2.0/01/2020").toList
    ∧ jsNumber "2.0" = JsNum.dec 20 (-1) := by decide

/-- C5 amended: when the parser succeeds, the trimmed input did split on
`/` into exactly three components, each component's `Number(...)` value is
an integer, the integer values satisfy the day/month/year range checks,
and the constructed date round-trips; but a component need not be a plain
integer numeral (see the counterexample). -/
theorem parseUKDate_only_if_conditions (s : String) (dt : UKDate)
    (h : parseUKDate (some s) = some dt) :
    ∃ p1 p2 p3, splitSlash (jsTrimList s.toList) = [p1, p2, p3]
      ∧ (jsNumberL p1).isIntegerB = true
      ∧ (jsNumberL p2).isIntegerB = true
      ∧ (jsNumberL p3).isIntegerB = true
      ∧ 1 ≤ (jsNumberL p1).toInt ∧ (jsNumberL p1).toInt ≤ 31
      ∧ 1 ≤ (jsNumberL p2).toInt ∧ (jsNumberL p2).toInt ≤ 12
      ∧ 2000 ≤ (jsNumberL p3).toInt ∧ (jsNumberL p3).toInt ≤ 2100
      ∧ dt = mkJsDate (jsNumberL p3).toInt (jsNumberL p2).toInt (jsNumberL p1).toInt
      ∧ dt.year = (jsNumberL p3).toInt ∧ dt.month = (jsNumberL p2).toInt
      ∧ dt.day = (jsNumberL p1).toInt := by
  simp only [parseUKDate] at h
  by_cases hse : s = ""
  · rw [if_pos hse] at h
    exact absurd h (by simp)
  rw [if_neg hse] at h
  rcases hsp : splitSlash (jsTrimList s.toList) with _ | ⟨p1, _ | ⟨p2, _ | ⟨p3, _ | ⟨p4, rest⟩⟩⟩⟩
  · rw [hsp] at h; simp at h
  · rw [hsp] at h; simp at h
  · rw [hsp] at h; simp at h
  · rw [hsp] at h
    dsimp only at h
    split_ifs at h with hint hrange hround <;> simp at h
    have hdt : mkJsDate (jsNumberL p3).toInt (jsNumberL p2).toInt (jsNumberL p1).toInt = dt := h
    push_neg at hrange
    refine ⟨p1, p2, p3, rfl, hint.1, hint.2.1, hint.2.2,
      hrange.1, hrange.2.1, hrange.2.2.1, hrange.2.2.2.1,
      hrange.2.2.2.2.1, hrange.2.2.2.2.2, hdt.symm, ?_, ?_, ?_⟩
    · rw [← hdt]; exact hround.1
    · rw [← hdt]; exact hround.2.1
    · rw [← hdt]; exact hround.2.2
  · rw [hsp] at h; simp at h

/-- Witness for the amended C5 at the accepted input `"02/01/2020"`. -/
theorem parseUKDate_only_if_conditions_witness :
    ∃ p1 p2 p3, splitSlash (jsTrimList ("02/01/2020").toList) = [p1, p2, p3]
      ∧ (jsNumberL p1).isIntegerB = true
      ∧ (jsNumberL p2).isIntegerB = true
      ∧ (jsNumberL p3).isIntegerB = true
      ∧ 1 ≤ (jsNumberL p1).toInt ∧ (jsNumberL p1).toInt ≤ 31
      ∧ 1 ≤ (jsNumberL p2).toInt ∧ (jsNumberL p2).toInt ≤ 12
      ∧ 2000 ≤ (jsNumberL p3).toInt ∧ (jsNumberL p3).toInt ≤ 2100
      ∧ (⟨2020, 1, 2⟩ : UKDate) =
          mkJsDate (jsNumberL p3).toInt (jsNumberL p2).toInt (jsNumberL p1).toInt
      ∧ (⟨2020, 1, 2⟩ : UKDate).year = (jsNumberL p3).toInt
      ∧ (⟨2020, 1, 2⟩ : UKDate).month = (jsNumberL p2).toInt
      ∧ (⟨2020, 1, 2⟩ : UKDate).day = (jsNumberL p1).toInt :=
  parseUKDate_only_if_conditions "02/01/2020" ⟨2020, 1, 2⟩ (by decide)

/-! ### Claims about the by-name lookup (C6) -/

/-- A listing stored under the name `Focus`. -/
def focusListing : Car := { name := some "Focus", sold := false }

/-- C6 counterexample: the names `Focus` and `focus` agree up to letter
case, and the file-backed lookup finds the listing, but the Supabase-backed
`dbGetCarByName` (`eq("name", name)`) does not — its match is
case-sensitive. -/
theorem dbGetCarByName_case_sensitive :
    dbGetCarByName [focusListing] "focus" = none
    ∧ jsLower (jsStr focusListing.name) = jsLower "focus"
    ∧ fileFindByName [focusListing] "focus" = some focusListing := by decide

/-- C6 amended: the FILE-backed by-name lookup returns exactly the first
listing whose name matches the query case-insensitively (something is
returned iff such a listing exists, and anything returned is a stored
case-insensitive match); the Supabase-backed `dbGetCarByName` has the same
shape but with an exact, case-sensitive comparison. -/
theorem findByName_match_semantics (cars : List Car) (nm : String) :
    ((fileFindByName cars nm).isSome = true ↔
      ∃ c ∈ cars, jsLower (jsStr c.name) = jsLower nm)
    ∧ (∀ c, fileFindByName cars nm = some c →
        c ∈ cars ∧ jsLower (jsStr c.name) = jsLower nm)
    ∧ ((dbGetCarByName cars nm).isSome = true ↔ ∃ c ∈ cars, c.name = some nm)
    ∧ (∀ c, dbGetCarByName cars nm = some c → c ∈ cars ∧ c.name = some nm) := by
  refine ⟨⟨?_, ?_⟩, ?_, ⟨?_, ?_⟩, ?_⟩
  · intro h
    rcases ho : fileFindByName cars nm with _ | c
    · rw [ho] at h; simp at h
    · exact ⟨c, List.mem_of_find?_eq_some ho, by simpa using List.find?_some ho⟩
  · rintro ⟨c, hc, he⟩
    exact find?_isSome_of _ cars c hc (by simpa using he)
  · intro c hc
    exact ⟨List.mem_of_find?_eq_some hc, by simpa using List.find?_some hc⟩
  · intro h
    rcases ho : dbGetCarByName cars nm with _ | c
    · rw [ho] at h; simp at h
    · exact ⟨c, List.mem_of_find?_eq_some ho, by simpa using List.find?_some ho⟩
  · rintro ⟨c, hc, he⟩
    exact find?_isSome_of _ cars c hc (by simpa using he)
  · intro c hc
    exact ⟨List.mem_of_find?_eq_some hc, by simpa using List.find?_some hc⟩

/-- Witness for the amended C6: the file-backed lookup queried with
`FOCUS` returns a stored case-insensitive match. -/
theorem findByName_match_semantics_witness :
    focusListing ∈ [focusListing] ∧ jsLower (jsStr focusListing.name) = jsLower "FOCUS" :=
  (findByName_match_semantics [focusListing] "FOCUS").2.1 focusListing (by decide)

/-! ### Claims about create validation (C7) -/

theorem postCarsDb_spec (key adminKey : String) (data : Payload) (iso : String)
    (store : List Car) (hk : isAdmin key adminKey = true) :
    ((∃ msg, (postCarsDb key adminKey data iso store).2 = ApiResp.invalid msg) ↔
      (jsTrimStr (jsStr data.name) = "" ∨ jsTrimStr (jsStr data.garageId) = "" ∨
       data.year.isIntegerB = false ∨ data.price.isFiniteB = false ∨
       data.price.leZeroB = true ∨ (data.photos.getD []).filter (fun x => x != "") = []))
    ∧ ((∃ msg, (postCarsDb key adminKey data iso store).2 = ApiResp.invalid msg) →
        (postCarsDb key adminKey data iso store).1 = store)
    ∧ ((postCarsDb key adminKey data iso store).2 = ApiResp.okCreated ∨
        ∃ msg, (postCarsDb key adminKey data iso store).2 = ApiResp.invalid msg) := by
  unfold postCarsDb
  rw [if_neg (by rw [hk]; decide)]
  dsimp only
  split_ifs with h1 h2 h3 h4
  · exact ⟨iff_of_true ⟨"Missing name/garageId", rfl⟩ (by tauto),
      fun _ => rfl, Or.inr ⟨"Missing name/garageId", rfl⟩⟩
  · have hy : data.year.isIntegerB = false := by simpa using h2
    exact ⟨iff_of_true ⟨"Year must be integer", rfl⟩ (by tauto),
      fun _ => rfl, Or.inr ⟨"Year must be integer", rfl⟩⟩
  · have hp : data.price.isFiniteB = false ∨ data.price.leZeroB = true := by
      simpa [Bool.or_eq_true, Bool.not_eq_true'] using h3
    exact ⟨iff_of_true ⟨"Price must be > 0", rfl⟩ (by tauto),
      fun _ => rfl, Or.inr ⟨"Price must be > 0", rfl⟩⟩
  · have hph : (data.photos.getD []).filter (fun x => x != "") = [] :=
      List.length_eq_zero.mp h4
    exact ⟨iff_of_true ⟨"At least 1 photo required", rfl⟩ (by tauto),
      fun _ => rfl, Or.inr ⟨"At least 1 photo required", rfl⟩⟩
  · refine ⟨iff_of_false (by rintro ⟨msg, hmsg⟩; simp at hmsg) ?_,
      fun hex => absurd hex (by rintro ⟨msg, hmsg⟩; simp at hmsg), Or.inl rfl⟩
    rintro (hv | hv | hv | hv | hv | hv)
    · exact h1 (Or.inl hv)
    · exact h1 (Or.inr hv)
    · exact h2 (by simp [hv])
    · exact h3 (by simp [hv])
    · exact h3 (by simp [hv])
    · exact h4 (by simp [hv])

theorem postCarsFile_spec (key adminKey : String) (data : Payload) (iso : String)
    (store : List Car) (hk : isAdmin key adminKey = true) :
    ((∃ msg, (postCarsFile key adminKey data iso store).2 = ApiResp.invalid msg) ↔
      (jsTrimStr (jsStr data.name) = "" ∨ jsTrimStr (jsStr data.garageId) = "" ∨
       data.year.isIntegerB = false ∨ data.price.isFiniteB = false ∨
       data.price.leZeroB = true ∨ data.photos.getD [] = []))
    ∧ ((∃ msg, (postCarsFile key adminKey data iso store).2 = ApiResp.invalid msg) →
        (postCarsFile key adminKey data iso store).1 = store)
    ∧ ((postCarsFile key adminKey data iso store).2 = ApiResp.okCreated ∨
        ∃ msg, (postCarsFile key adminKey data iso store).2 = ApiResp.invalid msg) := by
  unfold postCarsFile
  rw [if_neg (by rw [hk]; decide)]
  dsimp only
  split_ifs with h1 h2 h3 h4
  · exact ⟨iff_of_true ⟨"Missing name/garageId", rfl⟩ (by tauto),
      fun _ => rfl, Or.inr ⟨"Missing name/garageId", rfl⟩⟩
  · have hy : data.year.isIntegerB = false := by simpa using h2
    exact ⟨iff_of_true ⟨"Year must be integer", rfl⟩ (by tauto),
      fun _ => rfl, Or.inr ⟨"Year must be integer", rfl⟩⟩
  · have hp : data.price.isFiniteB = false ∨ data.price.leZeroB = true := by
      simpa [Bool.or_eq_true, Bool.not_eq_true'] using h3
    exact ⟨iff_of_true ⟨"Price must be > 0", rfl⟩ (by tauto),
      fun _ => rfl, Or.inr ⟨"Price must be > 0", rfl⟩⟩
  · have hph : data.photos.getD [] = [] := List.length_eq_zero.mp h4
    exact ⟨iff_of_true ⟨"At least 1 photo required", rfl⟩ (by tauto),
      fun _ => rfl, Or.inr ⟨"At least 1 photo required", rfl⟩⟩
  · refine ⟨iff_of_false (by rintro ⟨msg, hmsg⟩; simp at hmsg) ?_,
      fun hex => absurd hex (by rintro ⟨msg, hmsg⟩; simp at hmsg), Or.inl rfl⟩
    rintro (hv | hv | hv | hv | hv | hv)
    · exact h1 (Or.inl hv)
    · exact h1 (Or.inr hv)
    · exact h2 (by simp [hv])
    · exact h3 (by simp [hv])
    · exact h3 (by simp [hv])
    · exact h4 (by simp [hv])

/-- A payload valid in every field except that its photos array holds one
blank string. -/
def blankPhotoPayload : Payload :=
  { name := some "Focus 2019", garageId := some "g1", year := JsNum.dec 2019 0,
    price := JsNum.dec 8500 0, photos := some [""] }

/-- C7 counterexample: with every other field valid and `photos = [""]`
(empty after filtering blank entries), the FILE-backed create succeeds —
it never filters blank photo entries — while the Supabase-backed create
rejects the same payload.  So "create fails exactly when … photos is empty
after filtering blank entries" does not hold of the file-backed handler. -/
theorem filePostCars_accepts_blank_photos :
    (postCarsFile "k" "k" blankPhotoPayload "2026-01-01T00:00:00Z" []).2 = ApiResp.okCreated
    ∧ (postCarsDb "k" "k" blankPhotoPayload "2026-01-01T00:00:00Z" []).2
        = ApiResp.invalid "At least 1 photo required"
    ∧ (blankPhotoPayload.photos.getD []).filter (fun x => x != "") = [] := by decide

/-- C7 amended: under a valid admin credential, each create handler fails
with `InvalidInput` exactly when its own validation predicate is violated —
name or garageId blank after trimming, year not an integer, price not
finite-and-positive, or photos empty; the Supabase-backed handler filters
falsy photo entries before the emptiness check while the file-backed one
tests the raw array.  In either handler nothing but ok/invalid can come
back, and no store insert happens on a validation failure. -/
theorem postCars_validation_characterization (key adminKey : String) (data : Payload)
    (iso : String) (store : List Car) (hk : isAdmin key adminKey = true) :
    ((∃ msg, (postCarsDb key adminKey data iso store).2 = ApiResp.invalid msg) ↔
      (jsTrimStr (jsStr data.name) = "" ∨ jsTrimStr (jsStr data.garageId) = "" ∨
       data.year.isIntegerB = false ∨ data.price.isFiniteB = false ∨
       data.price.leZeroB = true ∨ (data.photos.getD []).filter (fun x => x != "") = []))
    ∧ ((∃ msg, (postCarsFile key adminKey data iso store).2 = ApiResp.invalid msg) ↔
      (jsTrimStr (jsStr data.name) = "" ∨ jsTrimStr (jsStr data.garageId) = "" ∨
       data.year.isIntegerB = false ∨ data.price.isFiniteB = false ∨
       data.price.leZeroB = true ∨ data.photos.getD [] = []))
    ∧ ((∃ msg, (postCarsDb key adminKey data iso store).2 = ApiResp.invalid msg) →
        (postCarsDb key adminKey data iso store).1 = store)
    ∧ ((∃ msg, (postCarsFile key adminKey data iso store).2 = ApiResp.invalid msg) →
        (postCarsFile key adminKey data iso store).1 = store)
    ∧ ((postCarsDb key adminKey data iso store).2 = ApiResp.okCreated ∨
        ∃ msg, (postCarsDb key adminKey data iso store).2 = ApiResp.invalid msg)
    ∧ ((postCarsFile key adminKey data iso store).2 = ApiResp.okCreated ∨
        ∃ msg, (postCarsFile key adminKey data iso store).2 = ApiResp.invalid msg) :=
  ⟨(postCarsDb_spec key adminKey data iso store hk).1,
   (postCarsFile_spec key adminKey data iso store hk).1,
   (postCarsDb_spec key adminKey data iso store hk).2.1,
   (postCarsFile_spec key adminKey data iso store hk).2.1,
   (postCarsDb_spec key adminKey data iso store hk).2.2,
   (postCarsFile_spec key adminKey data iso store hk).2.2⟩

/-- Witness for the amended C7: the blank-photos payload makes the
Supabase-backed create report `InvalidInput` without touching the store. -/
theorem postCars_validation_characterization_witness :
    (∃ msg, (postCarsDb "k" "k" blankPhotoPayload "iso" []).2 = ApiResp.invalid msg)
    ∧ (postCarsDb "k" "k" blankPhotoPayload "iso" []).1 = [] :=
  ⟨(postCars_validation_characterization "k" "k" blankPhotoPayload "iso" [] (by decide)).1.mpr
     (by decide),
   (postCars_validation_characterization "k" "k" blankPhotoPayload "iso" [] (by decide)).2.2.1
     ((postCars_validation_characterization "k" "k" blankPhotoPayload "iso" [] (by decide)).1.mpr
       (by decide))⟩

/-! ### The one-way `sold` flag (C9) and visibility vs. `sold` (C10) -/

/-- C9: across every in-scope store operation of either backend — insert,
delete-by-name, mark-sold, and the (pure) reads — no existing listing ever
has its `sold` flag reset: any listing that is unsold after an operation
is either verbatim one of the listings that were already in the store, or
the operation's freshly inserted row.  In particular a listing stored with
`sold = true` can never come out of an operation with `sold = false`. -/
theorem sold_flag_one_way (op : StoreOp) (s : List Car) (c : Car)
    (hmem : c ∈ applyOp op s) (hfalse : c.sold = false) :
    c ∈ s ∨ ∃ p iso, (op = StoreOp.insertDb p iso ∧ c = dbInsertRow p iso)
      ∨ (op = StoreOp.insertFile p iso ∧ c = fileNewCar p iso) := by
  cases op with
  | insertDb p iso =>
    rcases List.mem_append.mp hmem with h | h
    · exact Or.inl h
    · exact Or.inr ⟨p, iso, Or.inl ⟨rfl, List.mem_singleton.mp h⟩⟩
  | insertFile p iso =>
    rcases List.mem_append.mp hmem with h | h
    · exact Or.inl h
    · exact Or.inr ⟨p, iso, Or.inr ⟨rfl, List.mem_singleton.mp h⟩⟩
  | deleteDb nm => exact Or.inl (List.mem_of_mem_filter hmem)
  | deleteFile nm => exact Or.inl (List.mem_of_mem_filter hmem)
  | markSoldDb nm today iso =>
    left
    simp only [applyOp, dbMarkSoldByName] at hmem
    rcases List.mem_map.mp hmem with ⟨a, ha, hfa⟩
    by_cases hn : (a.name == some nm) = true
    · rw [if_pos hn] at hfa
      rw [← hfa] at hfalse
      simp at hfalse
    · rw [if_neg hn] at hfa
      rw [← hfa]
      exact ha
  | markSoldFile nm today iso =>
    left
    simp only [applyOp, fileMarkSold] at hmem
    rcases hidx : jsFindIndex (soldMatch nm) s with _ | idx
    · rw [hidx] at hmem
      exact hmem
    · rw [hidx] at hmem
      dsimp only at hmem
      rcases updateAt_mem _ s idx c hmem with h | ⟨a, ha, hc⟩
      · exact h
      · rw [hc] at hfalse
        simp [soldUpdate] at hfalse
  | readList => exact Or.inl hmem
  | readByName nm => exact Or.inl hmem

/-- An unsold listing. -/
def carOne : Car := { name := some "One", sold := false }

/-- A sold listing. -/
def carTwo : Car := { name := some "Two", sold := true, soldDate := some "01/01/2024" }

/-- Witness for C9: after marking `Two` sold again through the
Supabase-backed update, the still-unsold `One` is verbatim an original
listing. -/
theorem sold_flag_one_way_witness :
    carOne ∈ [carOne, carTwo]
    ∨ ∃ p iso,
      (StoreOp.markSoldDb "Two" "02/01/2024" "i" = StoreOp.insertDb p iso
        ∧ carOne = dbInsertRow p iso)
      ∨ (StoreOp.markSoldDb "Two" "02/01/2024" "i" = StoreOp.insertFile p iso
        ∧ carOne = fileNewCar p iso) :=
  sold_flag_one_way (StoreOp.markSoldDb "Two" "02/01/2024" "i") [carOne, carTwo] carOne
    (by decide) (by decide)

/-- C10: public visibility depends only on `soldDate` and ignores the
`sold` boolean entirely — flipping `sold` never changes `soldTooOld`; a
listing with `sold = true` but a missing or unparseable `soldDate` stays
in the public list; and a listing with `sold = false` but a parseable
`soldDate` older than the hide window is dropped from the public list. -/
theorem visibility_ignores_sold_flag (c1 c2 : Car) (now : Int) (cars : List Car)
    (h1 : c1.soldDate = none ∨ ∃ u, c1.soldDate = some u ∧ parseUKDate (some u) = none)
    (h1s : c1.sold = true) (h1m : c1 ∈ cars)
    (s : String) (dt : UKDate)
    (h2s : c2.sold = false) (h2d : c2.soldDate = some s)
    (h2p : parseUKDate (some s) = some dt)
    (h2t : hideAfterMs < now - dateGetTime dt) :
    (∀ (c : Car) (b : Bool) (t : Int), soldTooOld { c with sold := b } t = soldTooOld c t)
    ∧ c1 ∈ listPublic cars now
    ∧ ¬ (c2 ∈ listPublic cars now) := by
  refine ⟨fun c b t => rfl, ?_, ?_⟩
  · unfold listPublic
    rw [List.mem_filter]
    exact ⟨h1m, by rw [soldTooOld_noparse c1 now h1]; rfl⟩
  · unfold listPublic
    intro hmem
    have hv := (List.mem_filter.mp hmem).2
    rw [soldTooOld_parsed c2 s dt now h2d h2p] at hv
    simp only [Bool.not_eq_true', decide_eq_false_iff_not, gt_iff_lt] at hv
    exact hv h2t

/-- An expired listing never marked sold in its boolean field. -/
def hiddenListing : Car := { name := some "Old", sold := false, soldDate := some "01/01/2020" }

/-- A listing flagged sold whose recorded date cannot be parsed. -/
def limboListing : Car := { name := some "Limbo", sold := true, soldDate := some "whenever" }

/-- Witness for C10 in November 2023: the unparseable-date listing stays
public although `sold = true`, and the long-expired one is hidden although
`sold = false`. -/
theorem visibility_ignores_sold_flag_witness :
    (∀ (c : Car) (b : Bool) (t : Int), soldTooOld { c with sold := b } t = soldTooOld c t)
    ∧ limboListing ∈ listPublic [limboListing, hiddenListing] 1700000000000
    ∧ ¬ (hiddenListing ∈ listPublic [limboListing, hiddenListing] 1700000000000) :=
  visibility_ignores_sold_flag limboListing hiddenListing 1700000000000
    [limboListing, hiddenListing]
    (Or.inr ⟨"whenever", rfl, by decide⟩) rfl (by decide)
    "01/01/2020" ⟨2020, 1, 1⟩ rfl rfl (by decide) (by decide)
